import Mathlib

/-!
Verification development for the SMP grade & attendance system.

The repository's single source file, `app/models.py`, defines the data model:
persistent entities (`Grade`, `Attendance`, enumerations `GradeCategory`,
`AttendanceStatus`), update schemas (`GradeUpdate`, ...), and the derived
summary shapes (`StudentGradesSummary`, `StudentAttendanceSummary`,
`ClassGradesSummary`, `ClassAttendanceSummary`).  The aggregation engine the
specification describes (GradeAggregator, AttendanceAggregator) is not part of
the source tree; its operations are modelled here from the specification's
algorithm descriptions, over the data model embedded from the source.

Scores and percentages are decimals with exactly two fractional digits
(`Decimal` with `decimal_places=2` in the source; §9 of the specification
asks for a fixed-point representation with explicit round-half-up).  They are
embedded in fixed point as integer hundredths: the Python decimal `80.50` is
the natural number `8050`.  `roundHalfUp num den` is the round-half-up of the
exact rational `num / den`; the lemma `roundHalfUp_isRoundHalfUp` proves it agrees
with the real-number round-half-up.  Calendar dates are year/month/day
triples ordered lexicographically.
-/

/-- Calendar date, as used by `Grade.assessment_date` and
`Attendance.attendance_date` in `app/models.py`. -/
structure Date where
  year : Nat
  month : Nat
  day : Nat
deriving DecidableEq

/-- Strict calendar ordering of dates: lexicographic on (year, month, day). -/
def Date.ltP (a b : Date) : Prop :=
  a.year < b.year ∨
    (a.year = b.year ∧ (a.month < b.month ∨ (a.month = b.month ∧ a.day < b.day)))

instance (a b : Date) : Decidable (Date.ltP a b) :=
  decidable_of_iff
    (a.year < b.year ∨
      (a.year = b.year ∧ (a.month < b.month ∨ (a.month = b.month ∧ a.day < b.day))))
    Iff.rfl

/-- `AttendanceStatus` enum from `app/models.py` (HADIR = present, ALPHA =
absent without notice, IZIN = excused, SAKIT = sick, TERLAMBAT = late). -/
inductive AttendanceStatus
  | hadir
  | alpha
  | izin
  | sakit
  | terlambat
deriving DecidableEq

/-- `GradeCategory` enum from `app/models.py` (HARIAN 30%, UTS 30%, UAS 40%). -/
inductive GradeCategory
  | harian
  | uts
  | uas
deriving DecidableEq

/-- `Grade` record from `app/models.py` (persistent fields the engine reads;
timestamps omitted).  `score` is a 0–100 decimal with two fractional digits,
embedded as integer hundredths (so `score ≤ 10000`). -/
structure Grade where
  id : Nat
  student_id : Nat
  subject_id : Nat
  teacher_id : Nat
  category : GradeCategory
  score : Nat
  assessment_name : String
  assessment_date : Date
  semester : Nat
  academic_year : String
  notes : Option String
deriving DecidableEq

/-- `GradeUpdate` schema from `app/models.py`: the only fields an update can
carry are `score`, `assessment_name`, `assessment_date` and `notes`, each
optional. -/
structure GradeUpdate where
  score : Option Nat
  assessment_name : Option String
  assessment_date : Option Date
  notes : Option String
deriving DecidableEq

/-- `Attendance` record from `app/models.py` (timestamps omitted). -/
structure Attendance where
  id : Nat
  student_id : Nat
  teacher_id : Nat
  subject_id : Option Nat
  attendance_date : Date
  status : AttendanceStatus
  notes : Option String
  academic_year : String
deriving DecidableEq

/-- `StudentGradesSummary` report schema from `app/models.py`; decimal fields
in integer hundredths. -/
structure StudentGradesSummary where
  student_id : Nat
  student_name : String
  subject_id : Nat
  subject_name : String
  harian_avg : Option Nat
  uts_score : Option Nat
  uas_score : Option Nat
  final_grade : Option Nat
  semester : Nat
  academic_year : String
deriving DecidableEq

/-- `StudentAttendanceSummary` report schema from `app/models.py`;
`attendance_percentage` in hundredths of a percent (100% = `10000`). -/
structure StudentAttendanceSummary where
  student_id : Nat
  student_name : String
  total_days : Nat
  hadir_count : Nat
  alpha_count : Nat
  izin_count : Nat
  sakit_count : Nat
  terlambat_count : Nat
  attendance_percentage : Nat
  month : Nat
  year : Nat
deriving DecidableEq

/-- `ClassGradesSummary` report schema from `app/models.py`; decimal fields
in integer hundredths. -/
structure ClassGradesSummary where
  class_id : Nat
  class_name : String
  subject_id : Nat
  subject_name : String
  student_count : Nat
  average_grade : Nat
  highest_grade : Nat
  lowest_grade : Nat
  semester : Nat
  academic_year : String
deriving DecidableEq

/-- `ClassAttendanceSummary` report schema from `app/models.py`;
`overall_attendance_percentage` in hundredths of a percent. -/
structure ClassAttendanceSummary where
  class_id : Nat
  class_name : String
  total_students : Nat
  total_days : Nat
  overall_attendance_percentage : Nat
  month : Nat
  year : Nat
deriving DecidableEq

/-- Aggregator error kinds from the specification (§7). -/
inductive AggError
  | invalidScope
  | missingReference
deriving DecidableEq

deriving instance DecidableEq for Except

/-- Round-half-up of the exact rational `num / den`, as a natural number:
`⌊num / den + 1 / 2⌋ = (2 * num + den) / (2 * den)` in integer division.
This is the rounding mode the specification fixes (§9); the agreement with
the real-number round-half-up is `roundHalfUp_sandwich` below. -/
def roundHalfUp (num den : Nat) : Nat := (2 * num + den) / (2 * den)

/-- Modelled from the spec: scope filter of `computeStudentFinalGrade` step 1
(GradeAggregator, §4.1) — a grade record matches the requested
(student, subject, semester, academic_year). -/
def gradeInScope (g : Grade) (st su se : Nat) (ay : String) : Bool :=
  decide (g.student_id = st ∧ g.subject_id = su ∧ g.semester = se ∧ g.academic_year = ay)

/-- Modelled from the spec: deterministic choice between two grade records of
the same category — later `assessment_date` wins, ties broken by higher `id`
(§4.1 steps 4–5). -/
def pickLatest (a b : Grade) : Grade :=
  if Date.ltP a.assessment_date b.assessment_date then b
  else if Date.ltP b.assessment_date a.assessment_date then a
  else if a.id < b.id then b else a

/-- Modelled from the spec: selection of the single mid-term/final record —
the latest by `assessment_date`, tie-broken by highest `id`; `none` when the
category has no records (§4.1 steps 4–5). -/
def selectLatest : List Grade → Option Grade
  | [] => none
  | g :: gs => some (gs.foldl pickLatest g)

/-- Modelled from the spec: step 1 of `computeStudentFinalGrade` — the
records matching the requested scope (§4.1). -/
def scopeFilter (records : List Grade) (st su se : Nat) (ay : String) : List Grade :=
  records.filter (fun g => gradeInScope g st su se ay)

/-- Modelled from the spec: step 2 of `computeStudentFinalGrade` — the
records of one category (§4.1). -/
def catFilter (l : List Grade) (c : GradeCategory) : List Grade :=
  l.filter (fun g => decide (g.category = c))

/-- Modelled from the spec: step 3 of `computeStudentFinalGrade` — the
unweighted arithmetic mean of the daily scores, rounded half-up to 2
decimal places (in hundredths: `roundHalfUp (Σ scores) n`); absent when no
daily records exist (§4.1). -/
def harianAvg (l : List Grade) : Option Nat :=
  if l.isEmpty then none
  else some (roundHalfUp ((l.map (fun g => g.score)).sum) l.length)

/-- Modelled from the spec: step 6 of `computeStudentFinalGrade` — the
30/30/40-weighted final grade rounded half-up to 2 places, only when all
three categories are present.  In hundredths, `0.3·h + 0.3·u + 0.4·a` is the
rational `(3h + 3u + 4a) / 10`. -/
def combineFinal : Option Nat → Option Nat → Option Nat → Option Nat
  | some h, some u, some a => some (roundHalfUp (3 * h + 3 * u + 4 * a) 10)
  | _, _, _ => none

/-- Modelled from the spec: `computeStudentFinalGrade` (GradeAggregator,
§4.1), which is absent from the source tree.  Filters to the scope, fails
with `InvalidScope` on zero matching records, partitions by category, takes
the unweighted mean of daily scores rounded half-up to 2 places, the latest
mid-term and final scores, and the 30/30/40-weighted final grade rounded
half-up to 2 places only when all three categories are present. -/
def computeStudentFinalGrade (records : List Grade) (st : Nat) (stName : String)
    (su : Nat) (suName : String) (se : Nat) (ay : String) :
    Except AggError StudentGradesSummary :=
  if (scopeFilter records st su se ay).isEmpty then .error .invalidScope
  else
    .ok { student_id := st, student_name := stName, subject_id := su,
          subject_name := suName,
          harian_avg := harianAvg (catFilter (scopeFilter records st su se ay) .harian),
          uts_score := (selectLatest (catFilter (scopeFilter records st su se ay) .uts)).map
            (fun g => g.score),
          uas_score := (selectLatest (catFilter (scopeFilter records st su se ay) .uas)).map
            (fun g => g.score),
          final_grade :=
            combineFinal
              (harianAvg (catFilter (scopeFilter records st su se ay) .harian))
              ((selectLatest (catFilter (scopeFilter records st su se ay) .uts)).map
                (fun g => g.score))
              ((selectLatest (catFilter (scopeFilter records st su se ay) .uas)).map
                (fun g => g.score)),
          semester := se, academic_year := ay }

/-- Modelled from the spec: applying a `GradeUpdate` to a stored `Grade` —
each carried (non-`none`) field overwrites the record's field; the update
schema (from `app/models.py`) carries no other fields. -/
def applyGradeUpdate (g : Grade) (u : GradeUpdate) : Grade :=
  { g with
    score := u.score.getD g.score,
    assessment_name := u.assessment_name.getD g.assessment_name,
    assessment_date := u.assessment_date.getD g.assessment_date,
    notes := match u.notes with
      | some n => some n
      | none => g.notes }

/-- Modelled from the spec: severity of an attendance status under the
day-collapsing priority order absent-unexcused > late > excused > sick >
present (§4.2): the "worst" status wins when a student has conflicting
per-subject statuses on the same date. -/
def statusPriority : AttendanceStatus → Nat
  | .alpha => 4
  | .terlambat => 3
  | .izin => 2
  | .sakit => 1
  | .hadir => 0

/-- Modelled from the spec: the worse of two attendance statuses under
`statusPriority` (§4.2). -/
def worstStatus (a b : AttendanceStatus) : AttendanceStatus :=
  if statusPriority a < statusPriority b then b else a

/-- Modelled from the spec: the day-level status resolved from the statuses
of all records on one date — the worst one (§4.2).  `hadir` is the neutral
element of `worstStatus`, so the fold returns an element of any non-empty
list. -/
def resolveDay (l : List AttendanceStatus) : AttendanceStatus :=
  l.foldl worstStatus .hadir

/-- Modelled from the spec: scope filter of `computeStudentAttendance`
(AttendanceAggregator, §4.2) — an attendance record matches the requested
student and calendar month/year. -/
def attInScope (a : Attendance) (st m y : Nat) : Bool :=
  decide (a.student_id = st ∧ a.attendance_date.month = m ∧ a.attendance_date.year = y)

/-- Modelled from the spec: the distinct calendar dates with at least one
record in a record list (each date once). -/
def distinctDates (l : List Attendance) : List Date :=
  (l.map (fun a => a.attendance_date)).dedup

/-- Modelled from the spec: the resolved day-level status of date `d` in the
record list `l` — the worst status among the records on `d` (§4.2). -/
def dayStatus (l : List Attendance) (d : Date) : AttendanceStatus :=
  resolveDay ((l.filter (fun a => decide (a.attendance_date = d))).map (fun a => a.status))

/-- Modelled from the spec: how many distinct dates of `l` resolve to status
`s` (§4.2: per-status counts tally distinct days by the resolved day-level
status). -/
def countDays (l : List Attendance) (s : AttendanceStatus) : Nat :=
  ((distinctDates l).filter (fun d => decide (dayStatus l d = s))).length

/-- Modelled from the spec: the attendance records of one student in one
calendar month/year (§4.2). -/
def attFilter (records : List Attendance) (st m y : Nat) : List Attendance :=
  records.filter (fun a => attInScope a st m y)

/-- Modelled from the spec: `computeStudentAttendance` (AttendanceAggregator,
§4.2), which is absent from the source tree.  Filters to the student and
month/year, counts distinct dates once each with the worst status winning on
conflicts, and computes `attendance_percentage` =
(hadir + terlambat) / total_days × 100 rounded half-up to 2 decimals
(`0` when `total_days = 0`, not an error). -/
def computeStudentAttendance (records : List Attendance) (st : Nat)
    (stName : String) (m y : Nat) : StudentAttendanceSummary :=
  { student_id := st, student_name := stName,
    total_days := (distinctDates (attFilter records st m y)).length,
    hadir_count := countDays (attFilter records st m y) .hadir,
    alpha_count := countDays (attFilter records st m y) .alpha,
    izin_count := countDays (attFilter records st m y) .izin,
    sakit_count := countDays (attFilter records st m y) .sakit,
    terlambat_count := countDays (attFilter records st m y) .terlambat,
    attendance_percentage :=
      if (distinctDates (attFilter records st m y)).length = 0 then 0
      else
        roundHalfUp
          (10000 * (countDays (attFilter records st m y) .hadir +
            countDays (attFilter records st m y) .terlambat))
          (distinctDates (attFilter records st m y)).length,
    month := m, year := y }

/-- Modelled from the spec: sum of per-student `total_days` across a class
roster (§4.2). -/
def sumTotalDays (records : List Attendance) (roster : List Nat) (m y : Nat) : Nat :=
  ((roster.map (fun st => computeStudentAttendance records st "" m y)).map
    (fun s => s.total_days)).sum

/-- Modelled from the spec: sum of per-student present-equivalent days
(hadir + terlambat) across a class roster (§4.2). -/
def sumPresentDays (records : List Attendance) (roster : List Nat) (m y : Nat) : Nat :=
  ((roster.map (fun st => computeStudentAttendance records st "" m y)).map
    (fun s => s.hadir_count + s.terlambat_count)).sum

/-- Modelled from the spec: `computeClassAttendance` (AttendanceAggregator,
§4.2), which is absent from the source tree.  Sums per-student `total_days`
and present-equivalent days (hadir + terlambat) across the class roster, then
computes `overall_attendance_percentage` as the day-weighted aggregate
sum(present-equivalent) / sum(total_days) × 100 rounded half-up to 2
decimals — not the mean of per-student percentages. -/
def computeClassAttendance (records : List Attendance) (roster : List Nat)
    (cid : Nat) (cName : String) (m y : Nat) : ClassAttendanceSummary :=
  { class_id := cid, class_name := cName, total_students := roster.length,
    total_days := sumTotalDays records roster m y,
    overall_attendance_percentage :=
      if sumTotalDays records roster m y = 0 then 0
      else roundHalfUp (10000 * sumPresentDays records roster m y)
        (sumTotalDays records roster m y),
    month := m, year := y }

/-- Modelled from the spec: the final grade of one enrolled student within a
class-statistics pass — absent when the student has no records in scope
(`InvalidScope` is skipped) or when a category is missing (§4.1). -/
def studentFinal (records : List Grade) (st su se : Nat) (ay : String) : Option Nat :=
  match computeStudentFinalGrade records st "" su "" se ay with
  | .ok s => s.final_grade
  | .error _ => none

/-- Largest element of a list of naturals (`0` on the empty list). -/
def listMax : List Nat → Nat
  | [] => 0
  | f :: fs => fs.foldl max f

/-- Smallest element of a list of naturals (`0` on the empty list). -/
def listMin : List Nat → Nat
  | [] => 0
  | f :: fs => fs.foldl min f

/-- Modelled from the spec: the defined final grades of a class roster —
one entry per enrolled student with a defined final grade, absent ones
skipped (§4.1). -/
def classFinals (records : List Grade) (roster : List Nat) (su se : Nat)
    (ay : String) : List Nat :=
  roster.filterMap (fun st => studentFinal records st su se ay)

/-- Modelled from the spec: `computeClassGradeStatistics` (GradeAggregator,
§4.1), which is absent from the source tree.  Computes each enrolled
student's final grade, skipping absent ones; `student_count` is the count of
students with a defined final grade, and `average_grade` (mean rounded
half-up to 2 places), `highest_grade`, `lowest_grade` are taken over exactly
that set.  All-zero statistics when no student has a defined final grade. -/
def computeClassGradeStatistics (records : List Grade) (roster : List Nat)
    (cid : Nat) (cName : String) (su : Nat) (suName : String) (se : Nat)
    (ay : String) : ClassGradesSummary :=
  { class_id := cid, class_name := cName, subject_id := su,
    subject_name := suName,
    student_count := (classFinals records roster su se ay).length,
    average_grade :=
      if (classFinals records roster su se ay).isEmpty then 0
      else roundHalfUp (classFinals records roster su se ay).sum
        (classFinals records roster su se ay).length,
    highest_grade := listMax (classFinals records roster su se ay),
    lowest_grade := listMin (classFinals records roster su se ay),
    semester := se, academic_year := ay }

/-- Pointwise relation on grade records: all fields agree except that the
score on the right may be larger.  `List.Forall₂ ScoreLE` relates two record
snapshots that differ only by increasing some scores. -/
def ScoreLE (g g' : Grade) : Prop :=
  g.id = g'.id ∧ g.student_id = g'.student_id ∧ g.subject_id = g'.subject_id ∧
    g.teacher_id = g'.teacher_id ∧ g.category = g'.category ∧
    g.score ≤ g'.score ∧ g.assessment_name = g'.assessment_name ∧
    g.assessment_date = g'.assessment_date ∧ g.semester = g'.semester ∧
    g.academic_year = g'.academic_year ∧ g.notes = g'.notes

instance : DecidableRel ScoreLE := fun g g' =>
  decidable_of_iff
    (g.id = g'.id ∧ g.student_id = g'.student_id ∧ g.subject_id = g'.subject_id ∧
      g.teacher_id = g'.teacher_id ∧ g.category = g'.category ∧
      g.score ≤ g'.score ∧ g.assessment_name = g'.assessment_name ∧
      g.assessment_date = g'.assessment_date ∧ g.semester = g'.semester ∧
      g.academic_year = g'.academic_year ∧ g.notes = g'.notes)
    Iff.rfl

/-- Decision procedure for `List.Forall₂`. -/
def decForall₂ {α : Type} {r : α → α → Prop} [DecidableRel r] :
    (l l' : List α) → Decidable (List.Forall₂ r l l')
  | [], [] => .isTrue List.Forall₂.nil
  | [], _ :: _ => .isFalse (fun h => by cases h)
  | _ :: _, [] => .isFalse (fun h => by cases h)
  | a :: as, b :: bs =>
      match ‹DecidableRel r› a b, decForall₂ as bs with
      | isTrue h1, isTrue h2 => .isTrue (List.Forall₂.cons h1 h2)
      | isFalse h1, _ => .isFalse (fun h => by cases h; exact h1 ‹_›)
      | _, isFalse h2 => .isFalse (fun h => by cases h; exact h2 ‹_›)

instance {α : Type} {r : α → α → Prop} [DecidableRel r] (l l' : List α) :
    Decidable (List.Forall₂ r l l') := decForall₂ l l'

/-- Grade-record constructor for concrete examples. -/
def gMk (i : Nat) (c : GradeCategory) (sc : Nat) (d : Date) : Grade :=
  { id := i, student_id := 1, subject_id := 2, teacher_id := 3,
    category := c, score := sc, assessment_name := "a", assessment_date := d,
    semester := 1, academic_year := "2023/2024", notes := none }

/-- Attendance-record constructor for concrete examples. -/
def aMk (i st : Nat) (d : Date) (s : AttendanceStatus) : Attendance :=
  { id := i, student_id := st, teacher_id := 3, subject_id := none,
    attendance_date := d, status := s, notes := none,
    academic_year := "2023/2024" }

/-- Specification §8 scenario: daily scores 70, 80, 90, mid-term 75, final 85
(in hundredths). -/
def exGrades : List Grade :=
  [gMk 1 .harian 7000 ⟨2023, 9, 1⟩, gMk 2 .harian 8000 ⟨2023, 9, 8⟩,
   gMk 3 .harian 9000 ⟨2023, 9, 15⟩, gMk 4 .uts 7500 ⟨2023, 10, 1⟩,
   gMk 5 .uas 8500 ⟨2023, 12, 1⟩]

/-- Duplicate mid-term records: id 4 dated later than id 6, and ids 5, 7 tied
on date with 7 the higher id. -/
def exGradesDup : List Grade :=
  [gMk 1 .harian 7000 ⟨2023, 9, 1⟩,
   gMk 4 .uts 7500 ⟨2023, 10, 8⟩, gMk 6 .uts 9900 ⟨2023, 10, 1⟩,
   gMk 5 .uas 8500 ⟨2023, 12, 1⟩, gMk 7 .uas 6000 ⟨2023, 12, 1⟩]

/-- Records with the UAS category entirely missing. -/
def exGradesNoUas : List Grade :=
  [gMk 1 .harian 7000 ⟨2023, 9, 1⟩, gMk 4 .uts 7500 ⟨2023, 10, 1⟩]

/-- `exGrades` with the single mid-term score raised from 75 to 90. -/
def exGradesRaised : List Grade :=
  [gMk 1 .harian 7000 ⟨2023, 9, 1⟩, gMk 2 .harian 8000 ⟨2023, 9, 8⟩,
   gMk 3 .harian 9000 ⟨2023, 9, 15⟩, gMk 4 .uts 9000 ⟨2023, 10, 1⟩,
   gMk 5 .uas 8500 ⟨2023, 12, 1⟩]

/-- Specification §8 scenario: ten recorded days for one student — 7 present,
1 late, 1 excused, 1 sick. -/
def exAtt : List Attendance :=
  [aMk 1 1 ⟨2023, 9, 1⟩ .hadir, aMk 2 1 ⟨2023, 9, 2⟩ .hadir,
   aMk 3 1 ⟨2023, 9, 3⟩ .hadir, aMk 4 1 ⟨2023, 9, 4⟩ .hadir,
   aMk 5 1 ⟨2023, 9, 5⟩ .hadir, aMk 6 1 ⟨2023, 9, 6⟩ .hadir,
   aMk 7 1 ⟨2023, 9, 7⟩ .hadir, aMk 8 1 ⟨2023, 9, 8⟩ .terlambat,
   aMk 9 1 ⟨2023, 9, 9⟩ .izin, aMk 10 1 ⟨2023, 9, 10⟩ .sakit]

/-- Two records on the same date with conflicting statuses (present in one
subject, unexcused-absent in another), plus a normal day. -/
def exAttConflict : List Attendance :=
  [aMk 1 1 ⟨2023, 9, 4⟩ .hadir, aMk 2 1 ⟨2023, 9, 4⟩ .alpha,
   aMk 3 1 ⟨2023, 9, 5⟩ .hadir]

/-- Class scenario from the specification: student 1 has 18 of 20 recorded
days present, student 2 has 2 of 5. -/
def exClassAtt : List Attendance :=
  ((List.range 18).map (fun k => aMk (k + 1) 1 ⟨2023, 9, k + 1⟩ .hadir) ++
      [aMk 19 1 ⟨2023, 9, 19⟩ .alpha, aMk 20 1 ⟨2023, 9, 20⟩ .alpha]) ++
    ((List.range 2).map (fun k => aMk (k + 21) 2 ⟨2023, 9, k + 1⟩ .hadir) ++
      [aMk 23 2 ⟨2023, 9, 3⟩ .alpha, aMk 24 2 ⟨2023, 9, 4⟩ .alpha,
       aMk 25 2 ⟨2023, 9, 5⟩ .alpha])

/-- Grade records of two students of one class: student 1 complete (final
grade 80.50), student 4 lacking the UAS category (no final grade). -/
def exClassGrades : List Grade :=
  exGrades ++
    [{ gMk 11 .harian 6000 ⟨2023, 9, 1⟩ with student_id := 4 },
     { gMk 12 .uts 6500 ⟨2023, 10, 1⟩ with student_id := 4 }]

/-- `k` is the round-half-up of the exact rational `num / den`, stated over
`ℚ`: `k ≤ num / den + 1/2 < k + 1`.  Exactly one natural number satisfies
this, so it pins the rounding mode of the fixed-point computation. -/
def IsRoundHalfUp (k num den : Nat) : Prop :=
  (k : ℚ) ≤ (num : ℚ) / (den : ℚ) + 1 / 2 ∧
    (num : ℚ) / (den : ℚ) + 1 / 2 < (k : ℚ) + 1

theorem roundHalfUp_mono {a b : Nat} (den : Nat) (h : a ≤ b) :
    roundHalfUp a den ≤ roundHalfUp b den :=
  Nat.div_le_div_right (by omega)

theorem roundHalfUp_le {num den k : Nat} (h : num ≤ k * den) :
    roundHalfUp num den ≤ k := by
  unfold roundHalfUp
  calc (2 * num + den) / (2 * den) ≤ (2 * (k * den) + den) / (2 * den) :=
        Nat.div_le_div_right (by omega)
    _ = (den * (2 * k + 1)) / (den * 2) := by ring_nf
    _ ≤ k := by
        rcases Nat.eq_zero_or_pos den with hd | hd
        · simp [hd]
        · rw [Nat.mul_div_mul_left _ _ hd]; omega

theorem roundHalfUp_isRoundHalfUp (num den : Nat) (hden : 0 < den) :
    IsRoundHalfUp (roundHalfUp num den) num den := by
  have hdm : 2 * den * roundHalfUp num den + (2 * num + den) % (2 * den) =
      2 * num + den := by
    unfold roundHalfUp; exact Nat.div_add_mod _ _
  have hmod : (2 * num + den) % (2 * den) < 2 * den := Nat.mod_lt _ (by omega)
  have hD : (0 : ℚ) < (den : ℚ) := by exact_mod_cast hden
  have h2D : (0 : ℚ) < 2 * (den : ℚ) := by linarith
  have hQ : 2 * (den : ℚ) * (roundHalfUp num den : ℚ) +
      (((2 * num + den) % (2 * den) : Nat) : ℚ) = 2 * (num : ℚ) + (den : ℚ) := by
    exact_mod_cast hdm
  have hMQ : (((2 * num + den) % (2 * den) : Nat) : ℚ) < 2 * (den : ℚ) := by
    exact_mod_cast hmod
  have hM0 : (0 : ℚ) ≤ (((2 * num + den) % (2 * den) : Nat) : ℚ) := by positivity
  have heq : (num : ℚ) / (den : ℚ) + 1 / 2 =
      (2 * (num : ℚ) + (den : ℚ)) / (2 * (den : ℚ)) := by
    field_simp; ring
  constructor
  · rw [heq, le_div_iff₀ h2D]; nlinarith
  · rw [heq, div_lt_iff₀ h2D]; nlinarith

theorem Date.ltP_trans {a b c : Date} (h1 : Date.ltP a b) (h2 : Date.ltP b c) :
    Date.ltP a c := by
  cases a; cases b; cases c
  simp only [Date.ltP] at *
  omega

theorem Date.eq_of_not_ltP {a b : Date} (h1 : ¬ Date.ltP a b) (h2 : ¬ Date.ltP b a) :
    a = b := by
  cases a; cases b
  simp only [Date.ltP, Date.mk.injEq] at *
  omega

/-- `laterOrTied a b`: record `a` is at least as preferred as record `b`
under the specification's duplicate rule — strictly later `assessment_date`,
or the same date with an `id` at least as high. -/
def laterOrTied (a b : Grade) : Prop :=
  Date.ltP b.assessment_date a.assessment_date ∨
    (b.assessment_date = a.assessment_date ∧ b.id ≤ a.id)

theorem laterOrTied_refl (a : Grade) : laterOrTied a a :=
  Or.inr ⟨rfl, Nat.le_refl _⟩

theorem laterOrTied_trans {a b c : Grade} (h1 : laterOrTied a b)
    (h2 : laterOrTied b c) : laterOrTied a c := by
  rcases h1 with h1 | ⟨e1, i1⟩ <;> rcases h2 with h2 | ⟨e2, i2⟩
  · exact Or.inl (Date.ltP_trans h2 h1)
  · exact Or.inl (e2 ▸ h1)
  · exact Or.inl (e1 ▸ h2)
  · exact Or.inr ⟨e2.trans e1, i2.trans i1⟩

theorem pickLatest_eq_or (a b : Grade) : pickLatest a b = a ∨ pickLatest a b = b := by
  unfold pickLatest
  split_ifs <;> simp

theorem laterOrTied_pickLatest_left (a b : Grade) : laterOrTied (pickLatest a b) a := by
  unfold pickLatest
  split_ifs with h1 h2 h3
  · exact Or.inl h1
  · exact laterOrTied_refl a
  · exact Or.inr ⟨Date.eq_of_not_ltP h1 h2, Nat.le_of_lt h3⟩
  · exact laterOrTied_refl a

theorem laterOrTied_pickLatest_right (a b : Grade) : laterOrTied (pickLatest a b) b := by
  unfold pickLatest
  split_ifs with h1 h2 h3
  · exact laterOrTied_refl b
  · exact Or.inl h2
  · exact laterOrTied_refl b
  · exact Or.inr ⟨Date.eq_of_not_ltP h2 h1, Nat.le_of_not_lt h3⟩

theorem foldl_pickLatest_mem (l : List Grade) (a : Grade) :
    l.foldl pickLatest a = a ∨ l.foldl pickLatest a ∈ l := by
  induction l generalizing a with
  | nil => exact Or.inl rfl
  | cons b bs ih =>
      rw [List.foldl_cons]
      rcases ih (pickLatest a b) with h | h
      · rw [h]
        rcases pickLatest_eq_or a b with hp | hp
        · exact Or.inl hp
        · exact Or.inr (by rw [hp]; exact List.mem_cons_self b bs)
      · exact Or.inr (List.mem_cons_of_mem _ h)

theorem foldl_pickLatest_laterOrTied (l : List Grade) (a : Grade) :
    laterOrTied (l.foldl pickLatest a) a ∧
      ∀ g' ∈ l, laterOrTied (l.foldl pickLatest a) g' := by
  induction l generalizing a with
  | nil => exact ⟨laterOrTied_refl a, by simp⟩
  | cons b bs ih =>
      obtain ⟨h1, h2⟩ := ih (pickLatest a b)
      refine ⟨laterOrTied_trans h1 (laterOrTied_pickLatest_left a b), ?_⟩
      intro g' hg'
      rcases List.mem_cons.mp hg' with rfl | hg'
      · exact laterOrTied_trans h1 (laterOrTied_pickLatest_right a g')
      · exact h2 g' hg'

theorem selectLatest_spec {l : List Grade} {g : Grade}
    (h : selectLatest l = some g) : g ∈ l ∧ ∀ g' ∈ l, laterOrTied g g' := by
  match l, h with
  | a :: as, h =>
      have hg : as.foldl pickLatest a = g := by
        simpa [selectLatest] using h
      obtain ⟨h1, h2⟩ := foldl_pickLatest_laterOrTied as a
      constructor
      · rcases foldl_pickLatest_mem as a with hm | hm
        · rw [← hg, hm]; exact List.mem_cons_self a as
        · rw [← hg]; exact List.mem_cons_of_mem _ hm
      · intro g' hg'
        rw [← hg]
        rcases List.mem_cons.mp hg' with rfl | hg'
        · exact h1
        · exact h2 g' hg'

theorem selectLatest_eq_none_iff (l : List Grade) : selectLatest l = none ↔ l = [] := by
  cases l <;> simp [selectLatest]

theorem computeStudentFinalGrade_eq_ok {records : List Grade} {st : Nat}
    {stName : String} {su : Nat} {suName : String} {se : Nat} {ay : String}
    (h : scopeFilter records st su se ay ≠ []) :
    computeStudentFinalGrade records st stName su suName se ay = .ok
      { student_id := st, student_name := stName, subject_id := su,
        subject_name := suName,
        harian_avg := harianAvg (catFilter (scopeFilter records st su se ay) .harian),
        uts_score := (selectLatest (catFilter (scopeFilter records st su se ay) .uts)).map
          (fun g => g.score),
        uas_score := (selectLatest (catFilter (scopeFilter records st su se ay) .uas)).map
          (fun g => g.score),
        final_grade :=
          combineFinal (harianAvg (catFilter (scopeFilter records st su se ay) .harian))
            ((selectLatest (catFilter (scopeFilter records st su se ay) .uts)).map
              (fun g => g.score))
            ((selectLatest (catFilter (scopeFilter records st su se ay) .uas)).map
              (fun g => g.score)),
        semester := se, academic_year := ay } := by
  unfold computeStudentFinalGrade
  rw [if_neg (by simpa [List.isEmpty_iff] using h)]

theorem computeStudentFinalGrade_eq_error_iff (records : List Grade) (st : Nat)
    (stName : String) (su : Nat) (suName : String) (se : Nat) (ay : String)
    (e : AggError) :
    computeStudentFinalGrade records st stName su suName se ay = .error e ↔
      scopeFilter records st su se ay = [] ∧ e = .invalidScope := by
  unfold computeStudentFinalGrade
  split
  next hemp =>
    rw [List.isEmpty_iff] at hemp
    constructor
    · intro he; injection he with he; exact ⟨hemp, he.symm⟩
    · rintro ⟨-, rfl⟩; rfl
  next hemp =>
    rw [List.isEmpty_iff] at hemp
    simp [hemp]

theorem harianAvg_eq_none_iff (l : List Grade) : harianAvg l = none ↔ l = [] := by
  unfold harianAvg
  cases l <;> simp

theorem worstStatus_hadir (s : AttendanceStatus) : worstStatus .hadir s = s := by
  cases s <;> rfl

theorem worstStatus_eq_or (a b : AttendanceStatus) :
    worstStatus a b = a ∨ worstStatus a b = b := by
  unfold worstStatus
  split <;> simp

theorem statusPriority_le_worstStatus_left (a b : AttendanceStatus) :
    statusPriority a ≤ statusPriority (worstStatus a b) := by
  unfold worstStatus
  split <;> omega

theorem statusPriority_le_worstStatus_right (a b : AttendanceStatus) :
    statusPriority b ≤ statusPriority (worstStatus a b) := by
  unfold worstStatus
  split <;> omega

theorem foldl_worstStatus_mem (l : List AttendanceStatus) (a : AttendanceStatus) :
    l.foldl worstStatus a = a ∨ l.foldl worstStatus a ∈ l := by
  induction l generalizing a with
  | nil => exact Or.inl rfl
  | cons b bs ih =>
      rw [List.foldl_cons]
      rcases ih (worstStatus a b) with h | h
      · rw [h]
        rcases worstStatus_eq_or a b with hp | hp
        · exact Or.inl hp
        · exact Or.inr (by rw [hp]; exact List.mem_cons_self b bs)
      · exact Or.inr (List.mem_cons_of_mem _ h)

theorem statusPriority_le_foldl_worstStatus (l : List AttendanceStatus)
    (a : AttendanceStatus) :
    statusPriority a ≤ statusPriority (l.foldl worstStatus a) ∧
      ∀ s ∈ l, statusPriority s ≤ statusPriority (l.foldl worstStatus a) := by
  induction l generalizing a with
  | nil => exact ⟨Nat.le_refl _, by simp⟩
  | cons b bs ih =>
      obtain ⟨h1, h2⟩ := ih (worstStatus a b)
      rw [List.foldl_cons]
      refine ⟨(statusPriority_le_worstStatus_left a b).trans h1, ?_⟩
      intro s hs
      rcases List.mem_cons.mp hs with rfl | hs
      · exact (statusPriority_le_worstStatus_right a s).trans h1
      · exact h2 s hs

theorem resolveDay_mem {l : List AttendanceStatus} (h : l ≠ []) :
    resolveDay l ∈ l := by
  match l, h with
  | x :: xs, _ =>
      have : resolveDay (x :: xs) = xs.foldl worstStatus x := by
        unfold resolveDay
        rw [List.foldl_cons, worstStatus_hadir]
      rw [this]
      rcases foldl_worstStatus_mem xs x with hm | hm
      · rw [hm]; exact List.mem_cons_self x xs
      · exact List.mem_cons_of_mem _ hm

theorem statusPriority_le_resolveDay {l : List AttendanceStatus} :
    ∀ s ∈ l, statusPriority s ≤ statusPriority (resolveDay l) :=
  (statusPriority_le_foldl_worstStatus l .hadir).2

theorem mem_distinctDates_iff (l : List Attendance) (d : Date) :
    d ∈ distinctDates l ↔ ∃ a ∈ l, a.attendance_date = d := by
  simp [distinctDates, List.mem_dedup, List.mem_map]

theorem distinctDates_nodup (l : List Attendance) : (distinctDates l).Nodup :=
  List.nodup_dedup _

theorem dayStatus_mem {l : List Attendance} {d : Date} (h : d ∈ distinctDates l) :
    dayStatus l d ∈
      ((l.filter (fun a => decide (a.attendance_date = d))).map (fun a => a.status)) := by
  obtain ⟨a, ha, hd⟩ := (mem_distinctDates_iff l d).mp h
  apply resolveDay_mem
  have hmem : a ∈ l.filter (fun a => decide (a.attendance_date = d)) := by
    simp [List.mem_filter, ha, hd]
  simp only [ne_eq, List.map_eq_nil_iff]
  intro hnil
  rw [hnil] at hmem
  exact List.not_mem_nil a hmem

theorem filter_status_partition (f : Date → AttendanceStatus) (ds : List Date) :
    (ds.filter (fun d => decide (f d = .hadir))).length +
      (ds.filter (fun d => decide (f d = .alpha))).length +
      (ds.filter (fun d => decide (f d = .izin))).length +
      (ds.filter (fun d => decide (f d = .sakit))).length +
      (ds.filter (fun d => decide (f d = .terlambat))).length = ds.length := by
  induction ds with
  | nil => rfl
  | cons d ds ih =>
      simp only [List.filter_cons]
      cases hf : f d <;> simp [hf] <;> omega

theorem countDays_partition (l : List Attendance) :
    countDays l .hadir + countDays l .alpha + countDays l .izin +
      countDays l .sakit + countDays l .terlambat = (distinctDates l).length := by
  simpa [countDays] using filter_status_partition (dayStatus l) (distinctDates l)

theorem listMax_spec {l : List Nat} (h : l ≠ []) :
    listMax l ∈ l ∧ ∀ x ∈ l, x ≤ listMax l := by
  match l, h with
  | f :: fs, _ =>
      have key : ∀ (gs : List Nat) (a : Nat),
          (gs.foldl max a = a ∨ gs.foldl max a ∈ gs) ∧
            a ≤ gs.foldl max a ∧ ∀ x ∈ gs, x ≤ gs.foldl max a := by
        intro gs
        induction gs with
        | nil => exact fun a => ⟨Or.inl rfl, Nat.le_refl _, by simp⟩
        | cons b bs ih =>
            intro a
            obtain ⟨hmem, hle, hall⟩ := ih (max a b)
            rw [List.foldl_cons]
            refine ⟨?_, le_trans (le_max_left a b) hle, ?_⟩
            · rcases hmem with hm | hm
              · rcases max_choice a b with hc | hc
                · exact Or.inl (by rw [hm, hc])
                · exact Or.inr (by rw [hm, hc]; exact List.mem_cons_self b bs)
              · exact Or.inr (List.mem_cons_of_mem _ hm)
            · intro x hx
              rcases List.mem_cons.mp hx with rfl | hx
              · exact le_trans (le_max_right a x) hle
              · exact hall x hx
      obtain ⟨hmem, hle, hall⟩ := key fs f
      have hLM : listMax (f :: fs) = fs.foldl max f := rfl
      rw [hLM]
      refine ⟨?_, ?_⟩
      · rcases hmem with hm | hm
        · rw [hm]; exact List.mem_cons_self f fs
        · exact List.mem_cons_of_mem _ hm
      · intro x hx
        rcases List.mem_cons.mp hx with rfl | hx
        · exact hle
        · exact hall x hx

theorem listMin_spec {l : List Nat} (h : l ≠ []) :
    listMin l ∈ l ∧ ∀ x ∈ l, listMin l ≤ x := by
  match l, h with
  | f :: fs, _ =>
      have key : ∀ (gs : List Nat) (a : Nat),
          (gs.foldl min a = a ∨ gs.foldl min a ∈ gs) ∧
            gs.foldl min a ≤ a ∧ ∀ x ∈ gs, gs.foldl min a ≤ x := by
        intro gs
        induction gs with
        | nil => exact fun a => ⟨Or.inl rfl, Nat.le_refl _, by simp⟩
        | cons b bs ih =>
            intro a
            obtain ⟨hmem, hle, hall⟩ := ih (min a b)
            rw [List.foldl_cons]
            refine ⟨?_, le_trans hle (min_le_left a b), ?_⟩
            · rcases hmem with hm | hm
              · rcases min_choice a b with hc | hc
                · exact Or.inl (by rw [hm, hc])
                · exact Or.inr (by rw [hm, hc]; exact List.mem_cons_self b bs)
              · exact Or.inr (List.mem_cons_of_mem _ hm)
            · intro x hx
              rcases List.mem_cons.mp hx with rfl | hx
              · exact le_trans hle (min_le_right a x)
              · exact hall x hx
      obtain ⟨hmem, hle, hall⟩ := key fs f
      have hLM : listMin (f :: fs) = fs.foldl min f := rfl
      rw [hLM]
      refine ⟨?_, ?_⟩
      · rcases hmem with hm | hm
        · rw [hm]; exact List.mem_cons_self f fs
        · exact List.mem_cons_of_mem _ hm
      · intro x hx
        rcases List.mem_cons.mp hx with rfl | hx
        · exact hle
        · exact hall x hx

theorem length_filterMap_eq_length_filter {α β : Type} (f : α → Option β)
    (l : List α) :
    (l.filterMap f).length = (l.filter (fun a => (f a).isSome)).length := by
  induction l with
  | nil => rfl
  | cons a as ih =>
      rw [List.filterMap_cons, List.filter_cons]
      cases hf : f a <;> simp [hf, ih]

theorem combineFinal_some (h u a : Nat) :
    combineFinal (some h) (some u) (some a) =
      some (roundHalfUp (3 * h + 3 * u + 4 * a) 10) := rfl

theorem combineFinal_eq_none {h u a : Option Nat}
    (hc : h = none ∨ u = none ∨ a = none) : combineFinal h u a = none := by
  rcases hc with rfl | rfl | rfl
  · cases u <;> cases a <;> rfl
  · cases h <;> cases a <;> rfl
  · cases h <;> cases u <;> rfl

/-- Claim C1: for every record sequence and scope with at least one matching
record, `computeStudentFinalGrade` returns a summary (it does not raise)
whose `final_grade` is the 30/30/40-weighted combination
`0.30·harian_avg + 0.30·uts_score + 0.40·uas_score` rounded half-up to two
decimal places whenever all three category values are present (in hundredths,
`roundHalfUp (3h + 3u + 4a) 10`, pinned to real round-half-up by
`IsRoundHalfUp`), and an absent `final_grade` — `none`, not `some 0` —
whenever any category value is absent; a category value is absent exactly
when that category has no records in scope. -/
theorem C1_final_grade_weighted (records : List Grade) (st : Nat)
    (stName : String) (su : Nat) (suName : String) (se : Nat) (ay : String)
    (hne : scopeFilter records st su se ay ≠ []) :
    ∃ s, computeStudentFinalGrade records st stName su suName se ay = .ok s ∧
      (∀ h u a, s.harian_avg = some h → s.uts_score = some u →
        s.uas_score = some a →
          s.final_grade = some (roundHalfUp (3 * h + 3 * u + 4 * a) 10) ∧
            IsRoundHalfUp (roundHalfUp (3 * h + 3 * u + 4 * a) 10)
              (3 * h + 3 * u + 4 * a) 10) ∧
      ((s.harian_avg = none ∨ s.uts_score = none ∨ s.uas_score = none) →
        s.final_grade = none) ∧
      (s.harian_avg = none ↔ catFilter (scopeFilter records st su se ay) .harian = []) ∧
      (s.uts_score = none ↔ catFilter (scopeFilter records st su se ay) .uts = []) ∧
      (s.uas_score = none ↔ catFilter (scopeFilter records st su se ay) .uas = []) := by
  refine ⟨_, computeStudentFinalGrade_eq_ok hne, ?_, ?_, ?_, ?_, ?_⟩
  · intro h u a hh hu ha
    simp only at hh hu ha
    constructor
    · simp only [hh, hu, ha, combineFinal_some]
    · exact roundHalfUp_isRoundHalfUp _ _ (by norm_num)
  · intro hc
    simp only at hc ⊢
    exact combineFinal_eq_none hc
  · simp only [harianAvg_eq_none_iff]
  · simp only [Option.map_eq_none', selectLatest_eq_none_iff]
  · simp only [Option.map_eq_none', selectLatest_eq_none_iff]

/-- Witness for C1: the §8 scenario records (daily 70, 80, 90; UTS 75;
UAS 85) have a non-empty scope, the aggregator returns a summary, and its
final grade is 80.50 (8050 in hundredths). -/
theorem C1_witness :
    scopeFilter exGrades 1 2 1 "2023/2024" ≠ [] ∧
      ∃ s, computeStudentFinalGrade exGrades 1 "s" 2 "m" 1 "2023/2024" = .ok s ∧
        s.final_grade = some 8050 := by
  refine ⟨by decide, ?_⟩
  obtain ⟨s, hs, hfor, -, -, -, -⟩ :=
    C1_final_grade_weighted exGrades 1 "s" 2 "m" 1 "2023/2024" (by decide)
  have hc : computeStudentFinalGrade exGrades 1 "s" 2 "m" 1 "2023/2024" =
      .ok { student_id := 1, student_name := "s", subject_id := 2,
            subject_name := "m", harian_avg := some 8000,
            uts_score := some 7500, uas_score := some 8500,
            final_grade := some 8050, semester := 1,
            academic_year := "2023/2024" } := by decide
  rw [hc] at hs
  injection hs with hs
  subst hs
  refine ⟨_, hc, ?_⟩
  obtain ⟨hf, -⟩ := hfor 8000 7500 8500 rfl rfl rfl
  rw [hf]
  decide

/-- Claim C2: for every scope with at least one matching record, the
summary's `harian_avg` is the unweighted arithmetic mean of the daily-category
scores rounded half-up to two decimal places (in hundredths,
`roundHalfUp (Σ scores) n`, pinned to real round-half-up by `IsRoundHalfUp`)
when daily records exist, and is absent when no daily records exist. -/
theorem C2_harian_avg_mean (records : List Grade) (st : Nat) (stName : String)
    (su : Nat) (suName : String) (se : Nat) (ay : String)
    (hne : scopeFilter records st su se ay ≠ []) :
    ∃ s, computeStudentFinalGrade records st stName su suName se ay = .ok s ∧
      (catFilter (scopeFilter records st su se ay) .harian = [] →
        s.harian_avg = none) ∧
      (catFilter (scopeFilter records st su se ay) .harian ≠ [] →
        s.harian_avg = some (roundHalfUp
          (((catFilter (scopeFilter records st su se ay) .harian).map
            (fun g => g.score)).sum)
          (catFilter (scopeFilter records st su se ay) .harian).length) ∧
        IsRoundHalfUp
          (roundHalfUp
            (((catFilter (scopeFilter records st su se ay) .harian).map
              (fun g => g.score)).sum)
            (catFilter (scopeFilter records st su se ay) .harian).length)
          (((catFilter (scopeFilter records st su se ay) .harian).map
            (fun g => g.score)).sum)
          (catFilter (scopeFilter records st su se ay) .harian).length) := by
  refine ⟨_, computeStudentFinalGrade_eq_ok hne, ?_, ?_⟩
  · intro hc
    simp only [harianAvg_eq_none_iff]
    exact hc
  · intro hc
    constructor
    · simp only [harianAvg]
      rw [if_neg (by simpa [List.isEmpty_iff] using hc)]
    · exact roundHalfUp_isRoundHalfUp _ _ (List.length_pos.mpr hc)

/-- Witness for C2: on the §8 scenario records the daily scores are 70, 80,
90 and `harian_avg` is exactly 80.00 (8000 in hundredths). -/
theorem C2_witness :
    scopeFilter exGrades 1 2 1 "2023/2024" ≠ [] ∧
      catFilter (scopeFilter exGrades 1 2 1 "2023/2024") .harian ≠ [] ∧
      ∃ s, computeStudentFinalGrade exGrades 1 "s" 2 "m" 1 "2023/2024" = .ok s ∧
        s.harian_avg = some 8000 := by
  refine ⟨by decide, by decide, ?_⟩
  obtain ⟨s, hs, -, hmean⟩ :=
    C2_harian_avg_mean exGrades 1 "s" 2 "m" 1 "2023/2024" (by decide)
  obtain ⟨havg, -⟩ := hmean (by decide)
  refine ⟨s, hs, ?_⟩
  rw [havg]
  decide

/-- Claim C3: for every scope with at least one matching record, the
summary's `uts_score` (resp. `uas_score`) is the score of the record
`selectLatest` picks from the mid-term (resp. final) category — a record of
that category that is at least as preferred as every other under
`laterOrTied` (strictly later `assessment_date`, or equal date and an `id`
at least as high) — never an average of duplicates; and the computation is
deterministic: the same input sequence yields the same result. -/
theorem C3_latest_selection (records : List Grade) (st : Nat) (stName : String)
    (su : Nat) (suName : String) (se : Nat) (ay : String)
    (hne : scopeFilter records st su se ay ≠ []) :
    ∃ s, computeStudentFinalGrade records st stName su suName se ay = .ok s ∧
      s.uts_score = (selectLatest (catFilter (scopeFilter records st su se ay) .uts)).map
        (fun g => g.score) ∧
      s.uas_score = (selectLatest (catFilter (scopeFilter records st su se ay) .uas)).map
        (fun g => g.score) ∧
      (∀ g, selectLatest (catFilter (scopeFilter records st su se ay) .uts) = some g →
        g ∈ catFilter (scopeFilter records st su se ay) .uts ∧
          ∀ g' ∈ catFilter (scopeFilter records st su se ay) .uts, laterOrTied g g') ∧
      (∀ g, selectLatest (catFilter (scopeFilter records st su se ay) .uas) = some g →
        g ∈ catFilter (scopeFilter records st su se ay) .uas ∧
          ∀ g' ∈ catFilter (scopeFilter records st su se ay) .uas, laterOrTied g g') ∧
      computeStudentFinalGrade records st stName su suName se ay =
        computeStudentFinalGrade records st stName su suName se ay := by
  refine ⟨_, computeStudentFinalGrade_eq_ok hne, rfl, rfl, ?_, ?_, rfl⟩
  · intro g hg
    exact selectLatest_spec hg
  · intro g hg
    exact selectLatest_spec hg

/-- Witness for C3: with duplicate mid-term records (id 4 dated 2023-10-08,
id 6 dated 2023-10-01) the later date wins — `uts_score` is id 4's 75.00 —
and with duplicate final records tied on date (ids 5 and 7, both 2023-12-01)
the higher id wins — `uas_score` is id 7's 60.00. -/
theorem C3_witness :
    scopeFilter exGradesDup 1 2 1 "2023/2024" ≠ [] ∧
      ∃ s, computeStudentFinalGrade exGradesDup 1 "s" 2 "m" 1 "2023/2024" = .ok s ∧
        s.uts_score = some 7500 ∧ s.uas_score = some 6000 := by
  refine ⟨by decide, ?_⟩
  obtain ⟨s, hs, huts, huas, -, -, -⟩ :=
    C3_latest_selection exGradesDup 1 "s" 2 "m" 1 "2023/2024" (by decide)
  refine ⟨s, hs, ?_, ?_⟩
  · rw [huts]; decide
  · rw [huas]; decide

/-- Claim C4: `computeStudentFinalGrade` fails with `InvalidScope` exactly
when zero grade records match the requested scope (and `InvalidScope` is the
only possible error); when matching records exist it returns a summary, and
if some category is merely missing the summary's `final_grade` is absent
rather than an error. -/
theorem C4_invalid_scope_iff (records : List Grade) (st : Nat) (stName : String)
    (su : Nat) (suName : String) (se : Nat) (ay : String) :
    (computeStudentFinalGrade records st stName su suName se ay =
        .error .invalidScope ↔ scopeFilter records st su se ay = []) ∧
      (∀ e, computeStudentFinalGrade records st stName su suName se ay = .error e →
        e = .invalidScope) ∧
      (scopeFilter records st su se ay ≠ [] →
        ∃ s, computeStudentFinalGrade records st stName su suName se ay = .ok s ∧
          ((catFilter (scopeFilter records st su se ay) .harian = [] ∨
            catFilter (scopeFilter records st su se ay) .uts = [] ∨
            catFilter (scopeFilter records st su se ay) .uas = []) →
            s.final_grade = none)) := by
  refine ⟨?_, ?_, ?_⟩
  · constructor
    · intro he
      exact ((computeStudentFinalGrade_eq_error_iff records st stName su suName
        se ay .invalidScope).mp he).1
    · intro hemp
      exact (computeStudentFinalGrade_eq_error_iff records st stName su suName
        se ay .invalidScope).mpr ⟨hemp, rfl⟩
  · intro e he
    exact ((computeStudentFinalGrade_eq_error_iff records st stName su suName
      se ay e).mp he).2
  · intro hne
    refine ⟨_, computeStudentFinalGrade_eq_ok hne, ?_⟩
    intro hc
    simp only
    apply combineFinal_eq_none
    rcases hc with hc | hc | hc
    · exact Or.inl ((harianAvg_eq_none_iff _).mpr hc)
    · exact Or.inr (Or.inl (by rw [Option.map_eq_none', selectLatest_eq_none_iff]; exact hc))
    · exact Or.inr (Or.inr (by rw [Option.map_eq_none', selectLatest_eq_none_iff]; exact hc))

/-- Witness for C4: an empty record list yields `InvalidScope`, while records
lacking only the UAS category yield a summary with an absent final grade. -/
theorem C4_witness :
    computeStudentFinalGrade [] 1 "s" 2 "m" 1 "2023/2024" =
        .error .invalidScope ∧
      scopeFilter exGradesNoUas 1 2 1 "2023/2024" ≠ [] ∧
      ∃ s, computeStudentFinalGrade exGradesNoUas 1 "s" 2 "m" 1 "2023/2024" = .ok s ∧
        s.final_grade = none := by
  refine ⟨?_, by decide, ?_⟩
  · exact (C4_invalid_scope_iff [] 1 "s" 2 "m" 1 "2023/2024").1.mpr (by decide)
  · obtain ⟨-, -, hok⟩ := C4_invalid_scope_iff exGradesNoUas 1 "s" 2 "m" 1 "2023/2024"
    obtain ⟨s, hs, hnone⟩ := hok (by decide)
    exact ⟨s, hs, hnone (by decide)⟩

/-- Claim C5: for every attendance record set, `attendance_percentage` is
(hadir_count + terlambat_count) / total_days × 100 rounded half-up to two
decimals when `total_days > 0` (late days count toward the numerator, pinned
to real round-half-up by `IsRoundHalfUp` over hundredths of a percent), is
exactly 0 when `total_days = 0` (no error, no NaN), and always lies in
[0, 100] (at most 10000 hundredths of a percent). -/
theorem C5_attendance_percentage (records : List Attendance) (st : Nat)
    (stName : String) (m y : Nat) (S : StudentAttendanceSummary)
    (hS : computeStudentAttendance records st stName m y = S) :
    S.attendance_percentage =
      (if S.total_days = 0 then 0
       else roundHalfUp (10000 * (S.hadir_count + S.terlambat_count))
         S.total_days) ∧
      S.attendance_percentage ≤ 10000 ∧
      (S.total_days ≠ 0 →
        IsRoundHalfUp S.attendance_percentage
          (10000 * (S.hadir_count + S.terlambat_count)) S.total_days) := by
  subst hS
  have hpart := countDays_partition (attFilter records st m y)
  dsimp only [computeStudentAttendance]
  refine ⟨rfl, ?_, ?_⟩
  · split
    next => exact Nat.zero_le _
    next h =>
      apply roundHalfUp_le
      have hle : countDays (attFilter records st m y) .hadir +
          countDays (attFilter records st m y) .terlambat ≤
          (distinctDates (attFilter records st m y)).length := by omega
      calc 10000 * (countDays (attFilter records st m y) .hadir +
            countDays (attFilter records st m y) .terlambat)
          ≤ 10000 * (distinctDates (attFilter records st m y)).length :=
            Nat.mul_le_mul_left _ hle
        _ = 10000 * (distinctDates (attFilter records st m y)).length := rfl
  · intro hne
    rw [if_neg hne]
    exact roundHalfUp_isRoundHalfUp _ _ (Nat.pos_of_ne_zero hne)

/-- Witness for C5: the §8 scenario (7 present, 1 late, 1 excused, 1 sick
over ten days) yields exactly 80.00%, and an empty record set yields
total_days 0 and percentage 0. -/
theorem C5_witness :
    (computeStudentAttendance exAtt 1 "s" 9 2023).attendance_percentage = 8000 ∧
      (computeStudentAttendance [] 1 "s" 9 2023).total_days = 0 ∧
      (computeStudentAttendance [] 1 "s" 9 2023).attendance_percentage = 0 := by
  obtain ⟨hfor, -, -⟩ :=
    C5_attendance_percentage exAtt 1 "s" 9 2023 (computeStudentAttendance exAtt 1 "s" 9 2023) rfl
  obtain ⟨hfor0, -, -⟩ :=
    C5_attendance_percentage [] 1 "s" 9 2023 (computeStudentAttendance [] 1 "s" 9 2023) rfl
  refine ⟨?_, by decide, ?_⟩
  · rw [hfor]; decide
  · rw [hfor0]; decide

/-- Claim C6: `total_days` counts each distinct calendar date with at least
one record exactly once (the distinct-date list has no duplicates and holds
exactly the dates of the filtered records); the resolved status of a day is
one of the statuses recorded on that date and dominates all of them under the
priority order alpha > terlambat > izin > sakit > hadir (the worst wins);
and the per-status counts tally distinct days by that resolved day-level
status, partitioning `total_days`. -/
theorem C6_day_collapsing (records : List Attendance) (st : Nat)
    (stName : String) (m y : Nat) (S : StudentAttendanceSummary)
    (hS : computeStudentAttendance records st stName m y = S) :
    S.total_days = (distinctDates (attFilter records st m y)).length ∧
      (distinctDates (attFilter records st m y)).Nodup ∧
      (∀ d, d ∈ distinctDates (attFilter records st m y) ↔
        ∃ a ∈ attFilter records st m y, a.attendance_date = d) ∧
      (∀ d ∈ distinctDates (attFilter records st m y),
        dayStatus (attFilter records st m y) d ∈
          ((attFilter records st m y).filter
            (fun a => decide (a.attendance_date = d))).map (fun a => a.status) ∧
        ∀ s ∈ ((attFilter records st m y).filter
            (fun a => decide (a.attendance_date = d))).map (fun a => a.status),
          statusPriority s ≤
            statusPriority (dayStatus (attFilter records st m y) d)) ∧
      S.hadir_count = countDays (attFilter records st m y) .hadir ∧
      S.alpha_count = countDays (attFilter records st m y) .alpha ∧
      S.izin_count = countDays (attFilter records st m y) .izin ∧
      S.sakit_count = countDays (attFilter records st m y) .sakit ∧
      S.terlambat_count = countDays (attFilter records st m y) .terlambat ∧
      S.hadir_count + S.alpha_count + S.izin_count + S.sakit_count +
        S.terlambat_count = S.total_days := by
  subst hS
  refine ⟨rfl, distinctDates_nodup _, mem_distinctDates_iff _, ?_, rfl, rfl, rfl,
    rfl, rfl, countDays_partition _⟩
  intro d hd
  exact ⟨dayStatus_mem hd, statusPriority_le_resolveDay⟩

/-- Witness for C6: a student with conflicting statuses (present and
unexcused-absent) on 2023-09-04 plus a normal present day on 2023-09-05 has
`total_days` 2 — the conflicting date counted once — resolved as one alpha
day (the worst status wins) and one hadir day, and the per-status counts sum
to `total_days`. -/
theorem C6_witness :
    (computeStudentAttendance exAttConflict 1 "s" 9 2023).total_days = 2 ∧
      (computeStudentAttendance exAttConflict 1 "s" 9 2023).alpha_count = 1 ∧
      (computeStudentAttendance exAttConflict 1 "s" 9 2023).hadir_count = 1 ∧
      (computeStudentAttendance exAttConflict 1 "s" 9 2023).hadir_count +
        (computeStudentAttendance exAttConflict 1 "s" 9 2023).alpha_count +
        (computeStudentAttendance exAttConflict 1 "s" 9 2023).izin_count +
        (computeStudentAttendance exAttConflict 1 "s" 9 2023).sakit_count +
        (computeStudentAttendance exAttConflict 1 "s" 9 2023).terlambat_count =
        (computeStudentAttendance exAttConflict 1 "s" 9 2023).total_days := by
  obtain ⟨htot, -, -, -, hh, ha, -, -, -, hsum⟩ :=
    C6_day_collapsing exAttConflict 1 "s" 9 2023
      (computeStudentAttendance exAttConflict 1 "s" 9 2023) rfl
  refine ⟨?_, ?_, ?_, hsum⟩
  · rw [htot]; decide
  · rw [ha]; decide
  · rw [hh]; decide

theorem sumPresentDays_le_sumTotalDays (records : List Attendance)
    (roster : List Nat) (m y : Nat) :
    sumPresentDays records roster m y ≤ sumTotalDays records roster m y := by
  unfold sumPresentDays sumTotalDays
  induction roster with
  | nil => simp
  | cons r rs ih =>
      simp only [List.map_cons, List.sum_cons]
      have hpart := countDays_partition (attFilter records r m y)
      have hhead : (computeStudentAttendance records r "" m y).hadir_count +
          (computeStudentAttendance records r "" m y).terlambat_count ≤
          (computeStudentAttendance records r "" m y).total_days := by
        dsimp only [computeStudentAttendance]
        omega
      omega

/-- Claim C7: the class-level `overall_attendance_percentage` is the
day-weighted aggregate — the sum over students of present-equivalent days
divided by the sum over students of recorded days, times 100, rounded
half-up (pinned to real round-half-up by `IsRoundHalfUp`) — not the
arithmetic mean of per-student percentages; it is 0 on an empty denominator
and never exceeds 100%. -/
theorem C7_class_weighted_aggregate (records : List Attendance)
    (roster : List Nat) (cid : Nat) (cName : String) (m y : Nat)
    (S : ClassAttendanceSummary)
    (hS : computeClassAttendance records roster cid cName m y = S) :
    S.total_days = sumTotalDays records roster m y ∧
      S.overall_attendance_percentage =
        (if sumTotalDays records roster m y = 0 then 0
         else roundHalfUp (10000 * sumPresentDays records roster m y)
           (sumTotalDays records roster m y)) ∧
      (sumTotalDays records roster m y ≠ 0 →
        IsRoundHalfUp S.overall_attendance_percentage
          (10000 * sumPresentDays records roster m y)
          (sumTotalDays records roster m y)) ∧
      S.overall_attendance_percentage ≤ 10000 := by
  subst hS
  dsimp only [computeClassAttendance]
  refine ⟨rfl, rfl, ?_, ?_⟩
  · intro hne
    rw [if_neg hne]
    exact roundHalfUp_isRoundHalfUp _ _ (Nat.pos_of_ne_zero hne)
  · split
    next => exact Nat.zero_le _
    next h =>
      apply roundHalfUp_le
      exact Nat.mul_le_mul_left _ (sumPresentDays_le_sumTotalDays records roster m y)

/-- Witness for C7: student 1 present 18 of 20 recorded days, student 2
present 2 of 5 — the class percentage is the day-weighted (18+2)/(20+5) =
80.00%, not the 65.00% mean of the per-student percentages 90.00% and
40.00%. -/
theorem C7_witness :
    (computeClassAttendance exClassAtt [1, 2] 7 "c" 9 2023).overall_attendance_percentage
        = 8000 ∧
      (computeStudentAttendance exClassAtt 1 "" 9 2023).attendance_percentage = 9000 ∧
      (computeStudentAttendance exClassAtt 2 "" 9 2023).attendance_percentage = 4000 ∧
      (9000 + 4000) / 2 = 6500 ∧
      (computeClassAttendance exClassAtt [1, 2] 7 "c" 9 2023).overall_attendance_percentage
        ≠ (9000 + 4000) / 2 := by
  obtain ⟨-, hfor, -, -⟩ :=
    C7_class_weighted_aggregate exClassAtt [1, 2] 7 "c" 9 2023
      (computeClassAttendance exClassAtt [1, 2] 7 "c" 9 2023) rfl
  refine ⟨?_, by decide, by decide, by decide, ?_⟩
  · rw [hfor]; decide
  · rw [hfor]; decide

theorem forall2_filter {α : Type} {R : α → α → Prop} {p q : α → Bool}
    (hpq : ∀ a b, R a b → p a = q b) :
    ∀ {l l' : List α}, List.Forall₂ R l l' →
      List.Forall₂ R (l.filter p) (l'.filter q) := by
  intro l l' h
  induction h with
  | nil => exact List.Forall₂.nil
  | @cons a b as bs hab htail ih =>
      have hq : q b = p a := (hpq a b hab).symm
      cases hp : p a with
      | false => simpa [List.filter_cons, hp, hq] using ih
      | true => simpa [List.filter_cons, hp, hq] using List.Forall₂.cons hab ih

theorem scoreLE_gradeInScope {a b : Grade} (h : ScoreLE a b) (st su se : Nat)
    (ay : String) : gradeInScope a st su se ay = gradeInScope b st su se ay := by
  obtain ⟨-, h2, h3, -, -, -, -, -, h9, h10, -⟩ := h
  unfold gradeInScope
  rw [h2, h3, h9, h10]

theorem scoreLE_category {a b : Grade} (h : ScoreLE a b) (c : GradeCategory) :
    decide (a.category = c) = decide (b.category = c) := by
  obtain ⟨-, -, -, -, h5, -, -, -, -, -, -⟩ := h
  rw [h5]

theorem scopeFilter_forall2 {records records' : List Grade} (st su se : Nat)
    (ay : String) (hrel : List.Forall₂ ScoreLE records records') :
    List.Forall₂ ScoreLE (scopeFilter records st su se ay)
      (scopeFilter records' st su se ay) := by
  unfold scopeFilter
  exact @forall2_filter Grade ScoreLE
    (fun g => gradeInScope g st su se ay) (fun g => gradeInScope g st su se ay)
    (fun a b hab => scoreLE_gradeInScope hab st su se ay) records records' hrel

theorem catFilter_forall2 {l l' : List Grade} (c : GradeCategory)
    (h : List.Forall₂ ScoreLE l l') :
    List.Forall₂ ScoreLE (catFilter l c) (catFilter l' c) := by
  unfold catFilter
  exact @forall2_filter Grade ScoreLE
    (fun g => decide (g.category = c)) (fun g => decide (g.category = c))
    (fun a b hab => scoreLE_category hab c) l l' h

theorem forall2_score_sum_le {l l' : List Grade}
    (h : List.Forall₂ ScoreLE l l') :
    (l.map (fun g => g.score)).sum ≤ (l'.map (fun g => g.score)).sum := by
  induction h with
  | nil => exact Nat.le_refl _
  | cons hab htail ih =>
      simp only [List.map_cons, List.sum_cons]
      exact Nat.add_le_add hab.2.2.2.2.2.1 ih

theorem harianAvg_mono {l l' : List Grade} (h : List.Forall₂ ScoreLE l l') :
    (harianAvg l = none ∧ harianAvg l' = none) ∨
      ∃ k k', harianAvg l = some k ∧ harianAvg l' = some k' ∧ k ≤ k' := by
  have hlen := h.length_eq
  cases l with
  | nil =>
      have hnil : l' = [] := by cases h; rfl
      subst hnil
      exact Or.inl ⟨rfl, rfl⟩
  | cons x xs =>
      cases l' with
      | nil => cases h
      | cons y ys =>
          have e1 : harianAvg (x :: xs) =
              some (roundHalfUp (((x :: xs).map (fun g => g.score)).sum)
                (x :: xs).length) := by
            simp [harianAvg]
          have e2 : harianAvg (y :: ys) =
              some (roundHalfUp (((y :: ys).map (fun g => g.score)).sum)
                (y :: ys).length) := by
            simp [harianAvg]
          refine Or.inr ⟨_, _, e1, e2, ?_⟩
          rw [← hlen]
          exact roundHalfUp_mono _ (forall2_score_sum_le h)

theorem pickLatest_congr {a a' b b' : Grade} (ha : ScoreLE a a')
    (hb : ScoreLE b b') : ScoreLE (pickLatest a b) (pickLatest a' b') := by
  obtain ⟨haid, -, -, -, -, -, -, hadate, -, -, -⟩ := id ha
  obtain ⟨hbid, -, -, -, -, -, -, hbdate, -, -, -⟩ := id hb
  unfold pickLatest
  by_cases h1 : Date.ltP a.assessment_date b.assessment_date
  · rw [if_pos h1, if_pos (show Date.ltP a'.assessment_date b'.assessment_date by
      rw [← hadate, ← hbdate]; exact h1)]
    exact hb
  · rw [if_neg h1, if_neg (show ¬ Date.ltP a'.assessment_date b'.assessment_date by
      rw [← hadate, ← hbdate]; exact h1)]
    by_cases h2 : Date.ltP b.assessment_date a.assessment_date
    · rw [if_pos h2, if_pos (show Date.ltP b'.assessment_date a'.assessment_date by
        rw [← hadate, ← hbdate]; exact h2)]
      exact ha
    · rw [if_neg h2, if_neg (show ¬ Date.ltP b'.assessment_date a'.assessment_date by
        rw [← hadate, ← hbdate]; exact h2)]
      by_cases h3 : a.id < b.id
      · rw [if_pos h3, if_pos (show a'.id < b'.id by rw [← haid, ← hbid]; exact h3)]
        exact hb
      · rw [if_neg h3, if_neg (show ¬ a'.id < b'.id by rw [← haid, ← hbid]; exact h3)]
        exact ha

theorem selectLatest_mono {l l' : List Grade} (h : List.Forall₂ ScoreLE l l') :
    (selectLatest l = none ∧ selectLatest l' = none) ∨
      ∃ g g', selectLatest l = some g ∧ selectLatest l' = some g' ∧ ScoreLE g g' := by
  cases h with
  | nil => exact Or.inl ⟨rfl, rfl⟩
  | @cons a b as bs hab htail =>
      have key : ∀ {xs ys : List Grade}, List.Forall₂ ScoreLE xs ys →
          ∀ {x y : Grade}, ScoreLE x y →
            ScoreLE (xs.foldl pickLatest x) (ys.foldl pickLatest y) := by
        intro xs ys ht
        induction ht with
        | nil => intro x y hxy; exact hxy
        | cons hcd htl ih =>
            intro x y hxy
            exact ih (pickLatest_congr hxy hcd)
      exact Or.inr ⟨_, _, rfl, rfl, key htail hab⟩

/-- Claim C8: increasing input scores (all other fields fixed) never
decreases the computed final grade: whenever the two record snapshots are
pointwise related by `ScoreLE` (identical fields, scores on the right at
least as large — in particular a single raised score) and both computations
return summaries, a defined final grade on the left forces a defined final
grade on the right that is at least as large, through the rounding step. -/
theorem C8_final_grade_monotone (records records' : List Grade) (st : Nat)
    (stName : String) (su : Nat) (suName : String) (se : Nat) (ay : String)
    (hrel : List.Forall₂ ScoreLE records records')
    (s s' : StudentGradesSummary)
    (hs : computeStudentFinalGrade records st stName su suName se ay = .ok s)
    (hs' : computeStudentFinalGrade records' st stName su suName se ay = .ok s')
    (f : Nat) (hf : s.final_grade = some f) :
    ∃ f', s'.final_grade = some f' ∧ f ≤ f' := by
  have hscope := scopeFilter_forall2 st su se ay hrel
  have hne : scopeFilter records st su se ay ≠ [] := by
    intro hemp
    have herr := (computeStudentFinalGrade_eq_error_iff records st stName su
      suName se ay .invalidScope).mpr ⟨hemp, rfl⟩
    rw [herr] at hs
    cases hs
  have hne' : scopeFilter records' st su se ay ≠ [] := by
    intro hemp
    apply hne
    have hlen := hscope.length_eq
    rw [hemp, List.length_nil] at hlen
    exact List.length_eq_zero.mp hlen
  rw [computeStudentFinalGrade_eq_ok hne] at hs
  rw [computeStudentFinalGrade_eq_ok hne'] at hs'
  injection hs with hs
  injection hs' with hs'
  subst hs
  subst hs'
  dsimp only at hf ⊢
  have hh := harianAvg_mono (catFilter_forall2 .harian hscope)
  have hu := selectLatest_mono (catFilter_forall2 .uts hscope)
  have hua := selectLatest_mono (catFilter_forall2 .uas hscope)
  rcases hh with ⟨e1, e1'⟩ | ⟨k, k', e1, e1', hk⟩
  · rw [e1, combineFinal_eq_none (Or.inl rfl)] at hf
    exact Option.noConfusion hf
  · rcases hu with ⟨e2, e2'⟩ | ⟨g1, g1', e2, e2', hg1⟩
    · rw [e2, Option.map_none'] at hf
      rw [combineFinal_eq_none (Or.inr (Or.inl rfl))] at hf
      exact Option.noConfusion hf
    · rcases hua with ⟨e3, e3'⟩ | ⟨g2, g2', e3, e3', hg2⟩
      · rw [e3, Option.map_none'] at hf
        rw [combineFinal_eq_none (Or.inr (Or.inr rfl))] at hf
        exact Option.noConfusion hf
      · rw [e1, e2, e3, Option.map_some', Option.map_some', combineFinal_some] at hf
        injection hf with hf
        refine ⟨roundHalfUp (3 * k' + 3 * g1'.score + 4 * g2'.score) 10, ?_, ?_⟩
        · rw [e1', e2', e3', Option.map_some', Option.map_some', combineFinal_some]
        · rw [← hf]
          apply roundHalfUp_mono
          have hsc1 := hg1.2.2.2.2.2.1
          have hsc2 := hg2.2.2.2.2.2.1
          omega

/-- Witness for C8: raising the mid-term score of the §8 scenario from 75 to
90 (records pointwise `ScoreLE`-related) raises the final grade from 80.50
to a value at least as large. -/
theorem C8_witness :
    List.Forall₂ ScoreLE exGrades exGradesRaised ∧
      ∃ s s' f f',
        computeStudentFinalGrade exGrades 1 "s" 2 "m" 1 "2023/2024" = .ok s ∧
        computeStudentFinalGrade exGradesRaised 1 "s" 2 "m" 1 "2023/2024" = .ok s' ∧
        s.final_grade = some f ∧ s'.final_grade = some f' ∧ f ≤ f' := by
  refine ⟨by decide, ?_⟩
  have h1 : computeStudentFinalGrade exGrades 1 "s" 2 "m" 1 "2023/2024" =
      .ok { student_id := 1, student_name := "s", subject_id := 2,
            subject_name := "m", harian_avg := some 8000,
            uts_score := some 7500, uas_score := some 8500,
            final_grade := some 8050, semester := 1,
            academic_year := "2023/2024" } := by decide
  have h2 : computeStudentFinalGrade exGradesRaised 1 "s" 2 "m" 1 "2023/2024" =
      .ok { student_id := 1, student_name := "s", subject_id := 2,
            subject_name := "m", harian_avg := some 8000,
            uts_score := some 9000, uas_score := some 8500,
            final_grade := some 8500, semester := 1,
            academic_year := "2023/2024" } := by decide
  obtain ⟨f', hf', hle⟩ := C8_final_grade_monotone exGrades exGradesRaised 1 "s"
    2 "m" 1 "2023/2024" (by decide) _ _ h1 h2 8050 rfl
  exact ⟨_, _, 8050, f', h1, h2, rfl, hf', hle⟩

/-- Claim C9: in the class grade statistics, `student_count` is the number of
enrolled (roster) students with a defined final grade — not total
enrollment — and `average_grade` (mean rounded half-up, pinned by
`IsRoundHalfUp`), `highest_grade` and `lowest_grade` are computed over
exactly that same list of defined final grades, so count and statistics are
mutually consistent. -/
theorem C9_class_statistics_consistent (records : List Grade)
    (roster : List Nat) (cid : Nat) (cName : String) (su : Nat)
    (suName : String) (se : Nat) (ay : String) (S : ClassGradesSummary)
    (hS : computeClassGradeStatistics records roster cid cName su suName se ay = S) :
    S.student_count = (classFinals records roster su se ay).length ∧
      S.student_count =
        (roster.filter (fun st => (studentFinal records st su se ay).isSome)).length ∧
      (classFinals records roster su se ay ≠ [] →
        S.highest_grade ∈ classFinals records roster su se ay ∧
        (∀ x ∈ classFinals records roster su se ay, x ≤ S.highest_grade) ∧
        S.lowest_grade ∈ classFinals records roster su se ay ∧
        (∀ x ∈ classFinals records roster su se ay, S.lowest_grade ≤ x) ∧
        S.average_grade = roundHalfUp (classFinals records roster su se ay).sum
          (classFinals records roster su se ay).length ∧
        IsRoundHalfUp S.average_grade (classFinals records roster su se ay).sum
          (classFinals records roster su se ay).length) := by
  subst hS
  dsimp only [computeClassGradeStatistics]
  refine ⟨rfl, ?_, ?_⟩
  · unfold classFinals
    exact length_filterMap_eq_length_filter _ roster
  · intro hne
    obtain ⟨hmax, hmaxall⟩ := listMax_spec hne
    obtain ⟨hmin, hminall⟩ := listMin_spec hne
    have havg : (if (classFinals records roster su se ay).isEmpty then 0
        else roundHalfUp (classFinals records roster su se ay).sum
          (classFinals records roster su se ay).length) =
        roundHalfUp (classFinals records roster su se ay).sum
          (classFinals records roster su se ay).length := by
      rw [if_neg (by simpa [List.isEmpty_iff] using hne)]
    refine ⟨hmax, hmaxall, hmin, hminall, havg, ?_⟩
    rw [havg]
    exact roundHalfUp_isRoundHalfUp _ _ (List.length_pos.mpr hne)

/-- Witness for C9: a roster of two students where student 1 has the full
§8 scenario (final grade 80.50) and student 4 lacks the UAS category:
`student_count` is 1 — not the enrollment 2 — and the highest, lowest and
average grades all equal student 1's 80.50. -/
theorem C9_witness :
    (computeClassGradeStatistics exClassGrades [1, 4] 7 "c" 2 "m" 1
        "2023/2024").student_count = 1 ∧
      ([1, 4] : List Nat).length = 2 ∧
      (computeClassGradeStatistics exClassGrades [1, 4] 7 "c" 2 "m" 1
        "2023/2024").highest_grade = 8050 ∧
      (computeClassGradeStatistics exClassGrades [1, 4] 7 "c" 2 "m" 1
        "2023/2024").lowest_grade = 8050 ∧
      (computeClassGradeStatistics exClassGrades [1, 4] 7 "c" 2 "m" 1
        "2023/2024").average_grade = 8050 := by
  obtain ⟨hcount, -, hstats⟩ :=
    C9_class_statistics_consistent exClassGrades [1, 4] 7 "c" 2 "m" 1
      "2023/2024" _ rfl
  obtain ⟨hmax, hmaxall, hmin, -, havg, -⟩ := hstats (by decide)
  have hfin : classFinals exClassGrades [1, 4] 2 1 "2023/2024" = [8050] := by decide
  refine ⟨?_, rfl, ?_, ?_, ?_⟩
  · rw [hcount, hfin]
    decide
  · rw [hfin] at hmax
    simpa using hmax
  · rw [hfin] at hmin
    simpa using hmin
  · rw [havg, hfin]
    decide

/-- Claim C10: applying a `GradeUpdate` to a `Grade` can change only the
`score`, `assessment_name`, `assessment_date` and `notes` fields — for every
record and update, `student_id`, `subject_id`, `teacher_id`, `category`,
`semester`, `academic_year` (and the primary key `id`) are unchanged, since
the update schema carries no fields for them. -/
theorem C10_grade_update_frame (g : Grade) (u : GradeUpdate) :
    (applyGradeUpdate g u).student_id = g.student_id ∧
      (applyGradeUpdate g u).subject_id = g.subject_id ∧
      (applyGradeUpdate g u).teacher_id = g.teacher_id ∧
      (applyGradeUpdate g u).category = g.category ∧
      (applyGradeUpdate g u).semester = g.semester ∧
      (applyGradeUpdate g u).academic_year = g.academic_year ∧
      (applyGradeUpdate g u).id = g.id :=
  ⟨rfl, rfl, rfl, rfl, rfl, rfl, rfl⟩
